import Mathlib

set_option autoImplicit false

namespace Hypercraft

/-! Shallow embedding of the hypercraft supervisor core
(`hypercraft-core`) and its HTTP adapter (`hypercraft-api`).
Pure data and control flow are translated directly from the Rust
sources; external effects (uuid generation, bcrypt, the pty, the
clock, the filesystem) are passed in as explicit arguments or
recorded in explicit world states. -/

/-- Error taxonomy of the core (error.rs, `ServiceError`). -/
inductive ServiceError where
  | NotFound (msg : String)
  | AlreadyExists (msg : String)
  | AlreadyRunning (id : String)
  | NotRunning (id : String)
  | InvalidId
  | PolicyViolation (msg : String)
  | InvalidSchedule (msg : String)
  | SpawnFailed (msg : String)
  | Unauthorized (msg : String)
  | TwoFactorRequired (msg : String)
  | Other (msg : String)
  deriving Repr, DecidableEq

/-- Token kinds (user/models.rs, `TokenType`). -/
inductive TokenType where
  | Dev
  | User
  | Refresh
  deriving Repr, DecidableEq

/-- Stored user account (user/models.rs, `User`); chrono timestamps are
abstracted to integers. -/
structure User where
  id : String
  username : String
  password_hash : String
  service_ids : List String
  token_version : Nat
  refresh_nonce : String
  created_at : Option Int
  updated_at : Option Int
  deriving Repr, DecidableEq

/-- JWT claim set (user/models.rs, `TokenClaims`). -/
structure TokenClaims where
  sub : String
  username : String
  iss : Option String
  aud : Option String
  token_type : TokenType
  service_ids : List String
  token_version : Nat
  refresh_nonce : Option String
  exp : Int
  iat : Int
  deriving Repr, DecidableEq

/-- UserManager configuration (user/manager.rs): jwt claims context and
token ttls; the data dir and signing secret are abstracted away because
tokens are modelled at the claims level. -/
structure UserManager where
  jwt_issuer : String
  jwt_audience : String
  access_token_ttl : Int
  refresh_token_ttl : Int
  deriving Repr, DecidableEq

/-- The on-disk user store `<data>/users/*.json`: one record per user. -/
abbrev Store := List User

/-- Largest u64 value; `token_version` is a u64 bumped with
`saturating_add(1)`. -/
def U64_MAX : Nat := 2 ^ 64 - 1

/-- Semantics of `u64::saturating_add(1)`. -/
def satAdd1 (v : Nat) : Nat := min (v + 1) U64_MAX

/-- Raw user lookup by id (reading `<users>/<id>.json`). -/
def getUserRaw (s : Store) (uid : String) : Option User :=
  s.find? (fun u => u.id == uid)

/-- UserManager::persist_user (user/manager.rs): whole-file rewrite of
the user's JSON record. -/
def persistUser (s : Store) (u : User) : Store :=
  if (s.find? (fun v => v.id == u.id)).isSome then
    s.map (fun v => if v.id == u.id then u else v)
  else
    u :: s

/-- UserManager::get_user (user/manager.rs): loads a user; if its
refresh_nonce is empty, heals it with a fresh uuid and persists. `fresh`
stands for the freshly generated uuid; the Nat in the result counts
persist_user disk writes performed by the call. -/
def get_user (s : Store) (uid : String) (fresh : String) :
    Except ServiceError (User × Store × Nat) :=
  match getUserRaw s uid with
  | none => .error (.NotFound ("user: " ++ uid))
  | some u =>
    if u.refresh_nonce.isEmpty then
      let healed := { u with refresh_nonce := fresh }
      .ok (healed, persistUser s healed, 1)
    else
      .ok (u, s, 0)

/-- Default leeway (seconds) the jsonwebtoken crate applies when
validating `exp`. -/
def JWT_LEEWAY : Int := 60

/-- Model of jsonwebtoken decode under `Validation::default()` plus
set_audience/set_issuer (user/auth.rs, verify_token): signature checking
is abstracted away (a token value in the model stands for a genuinely
signed claim set); exp, iss and aud are validated. -/
def decodeToken (m : UserManager) (now : Int) (c : TokenClaims) :
    Except ServiceError TokenClaims :=
  if c.exp < now - JWT_LEEWAY then .error (.Unauthorized "invalid token: ExpiredSignature")
  else if c.iss ≠ some m.jwt_issuer then .error (.Unauthorized "invalid token: InvalidIssuer")
  else if c.aud ≠ some m.jwt_audience then .error (.Unauthorized "invalid token: InvalidAudience")
  else .ok c

/-- UserManager::verify_token (user/auth.rs). -/
def verify_token (m : UserManager) (s : Store) (now : Int) (fresh : String)
    (token : TokenClaims) : Except ServiceError (TokenClaims × Store) :=
  match decodeToken m now token with
  | .error e => .error e
  | .ok claims =>
    if claims.token_type = TokenType.Dev then
      .error (.Unauthorized "dev token via jwt is not allowed")
    else
      match get_user s claims.sub fresh with
      | .error e => .error e
      | .ok (user, s1, _) =>
        if claims.token_version ≠ user.token_version then
          .error (.Unauthorized "token revoked")
        else if claims.token_type = TokenType.Refresh then
          match claims.refresh_nonce with
          | none => .error (.Unauthorized "refresh token missing nonce")
          | some n =>
            if n ≠ user.refresh_nonce then
              .error (.Unauthorized "refresh token revoked")
            else .ok (claims, s1)
        else .ok (claims, s1)

/-- Claim-level view of the AuthToken the engine returns: the two encoded
JWTs are represented by their claim sets (user/models.rs, `AuthToken`). -/
structure AuthToken where
  access_claims : TokenClaims
  refresh_claims : TokenClaims
  expires_in : Int
  token_type : String
  deriving Repr, DecidableEq

/-- UserManager::rotate_refresh_nonce (user/manager.rs); `fresh` stands
for `Uuid::new_v4()`. -/
def rotate_refresh_nonce (u : User) (fresh : String) : User :=
  { u with refresh_nonce := fresh }

/-- UserManager::issue_tokens (user/auth.rs): builds the access and
refresh claim sets; when `rotate_refresh` is set (or the stored nonce is
empty) the refresh nonce is rotated to `fresh` and the user persisted. -/
def issue_tokens (m : UserManager) (s : Store) (now : Int) (fresh : String)
    (user : User) (rotate_refresh : Bool) : AuthToken × Store :=
  let access_exp := now + m.access_token_ttl
  let refresh_exp := now + m.refresh_token_ttl
  let us : User × Store :=
    if rotate_refresh || user.refresh_nonce.isEmpty then
      let u2 := { rotate_refresh_nonce user fresh with updated_at := some now }
      (u2, persistUser s u2)
    else (user, s)
  let u := us.1
  let access : TokenClaims :=
    { sub := u.id, username := u.username, iss := some m.jwt_issuer,
      aud := some m.jwt_audience, token_type := TokenType.User,
      service_ids := u.service_ids, token_version := u.token_version,
      refresh_nonce := none, exp := access_exp, iat := now }
  let refreshC : TokenClaims :=
    { sub := u.id, username := u.username, iss := some m.jwt_issuer,
      aud := some m.jwt_audience, token_type := TokenType.Refresh,
      service_ids := [], token_version := u.token_version,
      refresh_nonce := some u.refresh_nonce, exp := refresh_exp, iat := now }
  ({ access_claims := access, refresh_claims := refreshC,
     expires_in := m.access_token_ttl, token_type := "Bearer" }, us.2)

/-- UserManager::find_by_username (user/manager.rs), abstracted to its
observable result: the stored user carrying the username, if any. -/
def find_by_username (s : Store) (username : String) : Option User :=
  s.find? (fun u => u.username == username)

/-- UserManager::login (user/auth.rs). `bcryptVerify` abstracts
`crypto::verify_password`; the Nat in the result counts how many bcrypt
verifications the call performed. -/
def login (m : UserManager) (s : Store) (now : Int) (fresh : String)
    (bcryptVerify : String → String → Bool) (username password : String) :
    Except ServiceError (AuthToken × Store) × Nat :=
  match find_by_username s username with
  | none => (.error (.Unauthorized "invalid credentials"), 0)
  | some user =>
    if !bcryptVerify password user.password_hash then
      (.error (.Unauthorized "invalid credentials"), 1)
    else
      (.ok (issue_tokens m s now fresh user true), 1)

/-- UserManager::refresh (user/auth.rs). `fresh_get` models the uuid used
for nonce self-healing inside get_user; `fresh_rotate` the uuid
issue_tokens rotates the refresh nonce to. -/
def refresh (m : UserManager) (s : Store) (now : Int)
    (fresh_get fresh_rotate : String) (token : TokenClaims) :
    Except ServiceError (AuthToken × Store) :=
  match verify_token m s now fresh_get token with
  | .error e => .error e
  | .ok (claims, s1) =>
    if claims.token_type ≠ TokenType.Refresh then
      .error (.Unauthorized "invalid token type")
    else
      match get_user s1 claims.sub fresh_get with
      | .error e => .error e
      | .ok (user, s2, _) => .ok (issue_tokens m s2 now fresh_rotate user true)

/-- UserManager::validate_password_strength (user/password.rs). -/
def validate_password_strength (password : String) : Except ServiceError Unit :=
  if password.length < 8 then
    .error (.PolicyViolation "password must be at least 8 characters")
  else
    let chars := password.toList
    let has_upper := chars.any (fun c => c.isUpper)
    let has_lower := chars.any (fun c => !c.isUpper && c.isLower)
    let has_digit := chars.any (fun c => !c.isUpper && !c.isLower && c.isDigit)
    let has_symbol := chars.any (fun c => !c.isUpper && !c.isLower && !c.isDigit)
    if !(has_upper && has_lower && (has_digit || has_symbol)) then
      .error (.PolicyViolation "password must include upper, lower, and number or symbol")
    else .ok ()

/-- UserManager::change_password (user/password.rs). `bcryptVerify`
abstracts the bcrypt verify of the current password, `new_hash` the
bcrypt hash of the new password, `fresh_get`/`fresh_rotate` the uuid
supplies of get_user and rotate_refresh_nonce. -/
def change_password (s : Store) (now : Int) (uid : String)
    (current_password : Option String) (new_password : String) (force : Bool)
    (bcryptVerify : String → String → Bool) (new_hash : String)
    (fresh_get fresh_rotate : String) : Except ServiceError (User × Store) :=
  match get_user s uid fresh_get with
  | .error e => .error e
  | .ok (user, s1, _) =>
    match validate_password_strength new_password with
    | .error e => .error e
    | .ok _ =>
      let checked : Except ServiceError Unit :=
        if force then .ok ()
        else
          match current_password with
          | none => .error (.Unauthorized "current password required")
          | some current =>
            if !bcryptVerify current user.password_hash then
              .error (.Unauthorized "invalid current password")
            else .ok ()
      match checked with
      | .error e => .error e
      | .ok _ =>
        let u2 := { user with
          password_hash := new_hash,
          token_version := satAdd1 user.token_version,
          refresh_nonce := fresh_rotate,
          updated_at := some now }
        .ok (u2, persistUser s1 u2)

/-- Update-user request body (user/models.rs, `UpdateUserRequest`). -/
structure UpdateUserRequest where
  password : Option String
  service_ids : Option (List String)
  deriving Repr, DecidableEq

/-- UserManager::update_user (user/manager.rs). `new_hash` stands for the
bcrypt hash of the requested password when one is present; `fresh_ensure`
is the uuid ensure_refresh_nonce would draw. -/
def update_user (s : Store) (now : Int) (uid : String) (req : UpdateUserRequest)
    (new_hash : String) (fresh_get fresh_rotate fresh_ensure : String) :
    Except ServiceError (User × Store) :=
  if uid = "__devtoken__" then
    .error (.PolicyViolation "cannot update internal virtual user")
  else
    match get_user s uid fresh_get with
    | .error e => .error e
    | .ok (user, s1, _) =>
      let step1 : Except ServiceError (User × Bool) :=
        match req.password with
        | none => .ok (user, false)
        | some pw =>
          match validate_password_strength pw with
          | .error e => .error e
          | .ok _ => .ok ({ user with password_hash := new_hash }, true)
      match step1 with
      | .error e => .error e
      | .ok (u1, bumped1) =>
        let ub : User × Bool :=
          match req.service_ids with
          | none => (u1, bumped1)
          | some ids => ({ u1 with service_ids := ids }, true)
        let u3 :=
          if ub.2 then
            { ub.1 with token_version := satAdd1 ub.1.token_version,
                        refresh_nonce := fresh_rotate }
          else ub.1
        let u4 := { u3 with updated_at := some now }
        let u5 :=
          if u4.refresh_nonce.isEmpty then { u4 with refresh_nonce := fresh_ensure }
          else u4
        .ok (u5, persistUser s1 u5)

/-- UserManager::add_service_permission (user/permissions.rs). The Nat in
the result counts persist_user disk writes the call performed. -/
def add_service_permission (s : Store) (now : Int) (uid service_id : String)
    (fresh_get fresh_rotate : String) : Except ServiceError (User × Store × Nat) :=
  match get_user s uid fresh_get with
  | .error e => .error e
  | .ok (user, s1, w) =>
    if user.service_ids.contains service_id then
      .ok (user, s1, w)
    else
      let u2 := { user with
        service_ids := user.service_ids ++ [service_id],
        token_version := satAdd1 user.token_version,
        refresh_nonce := fresh_rotate,
        updated_at := some now }
      .ok (u2, persistUser s1 u2, w + 1)

/-- UserManager::remove_service_permission (user/permissions.rs). -/
def remove_service_permission (s : Store) (now : Int) (uid service_id : String)
    (fresh_get fresh_rotate : String) : Except ServiceError (User × Store × Nat) :=
  match get_user s uid fresh_get with
  | .error e => .error e
  | .ok (user, s1, w) =>
    let u2 := { user with
      service_ids := user.service_ids.filter (fun i => i != service_id),
      token_version := satAdd1 user.token_version,
      refresh_nonce := fresh_rotate,
      updated_at := some now }
    .ok (u2, persistUser s1 u2, w + 1)

/-- Outcome of the HTTP auth middleware: the request is handed to the
next handler (with the auth extension when a claim set was attached), or
rejected with 401 / 429 / the refresh-token-specific 401. -/
inductive MwOutcome where
  | Admitted (claims : Option TokenClaims)
  | UnauthorizedRejected
  | TooManyRequestsRejected
  | RefreshTokenRejected
  deriving Repr, DecidableEq

/-- Public path list (app/middleware.rs, `PUBLIC_PATHS`). -/
def PUBLIC_PATHS : List String :=
  ["/health", "/auth/login", "/auth/devtoken", "/auth/refresh"]

/-- auth_middleware (app/middleware.rs). `verify` abstracts
`state.user_manager.verify_token` applied to the extracted token;
`limiterAllow` is the auth limiter's allow() answer for the client ip
(at most one allow call happens per request). -/
def auth_middleware (path : String) (token : Option String)
    (verify : String → Except ServiceError TokenClaims) (limiterAllow : Bool) :
    MwOutcome :=
  if PUBLIC_PATHS.contains path then .Admitted none
  else
    match token with
    | none =>
      if !limiterAllow then .TooManyRequestsRejected else .UnauthorizedRejected
    | some t =>
      match verify t with
      | .error _ =>
        if !limiterAllow then .TooManyRequestsRejected else .UnauthorizedRejected
      | .ok claims =>
        if claims.token_type = TokenType.Refresh then .RefreshTokenRejected
        else .Admitted (some claims)

/-- Configuration of the sliding-window limiter
(app/rate_limit.rs, `RateLimiter`). -/
structure RateLimiter where
  limit : Nat
  window : Nat
  sweep_threshold : Nat
  deriving Repr, DecidableEq

/-- The limiter's bucket map, key to recorded arrival instants
(instants on the monotonic clock, as Nats). -/
abbrev Buckets := List (String × List Nat)

/-- Bucket lookup; an absent key reads as the empty timestamp list
(`entry(..).or_default()` semantics). -/
def lookupBucket (bs : Buckets) (key : String) : List Nat :=
  match bs.find? (fun p => p.1 == key) with
  | some p => p.2
  | none => []

/-- Whether the map holds a bucket for `key`. -/
def containsBucket (bs : Buckets) (key : String) : Bool :=
  (bs.find? (fun p => p.1 == key)).isSome

/-- Overwrite the bucket stored under `key`. -/
def setBucket (bs : Buckets) (key : String) (ts : List Nat) : Buckets :=
  bs.map (fun p => if p.1 == key then (p.1, ts) else p)

/-- Remove the bucket stored under `key`. -/
def removeBucket (bs : Buckets) (key : String) : Buckets :=
  bs.filter (fun p => p.1 != key)

/-- Whole-map sweep (app/rate_limit.rs): drop out-of-window timestamps
everywhere and discard buckets that become empty. -/
def sweepBuckets (window now : Nat) (bs : Buckets) : Buckets :=
  bs.filterMap (fun p =>
    let ts := p.2.filter (fun t => now - t < window)
    if ts.isEmpty then none else some (p.1, ts))

/-- RateLimiter::allow (app/rate_limit.rs). `Instant::duration_since` on
the monotonic clock is truncated subtraction on Nat instants. -/
def RateLimiter.allow (rl : RateLimiter) (now : Nat) (key : String)
    (bs : Buckets) : Bool × Buckets :=
  let bs1 := if containsBucket bs key then bs else (key, []) :: bs
  let pruned := (lookupBucket bs1 key).filter (fun t => now - t < rl.window)
  let ae : Bool × List Nat :=
    if pruned.length ≥ rl.limit then (false, pruned) else (true, pruned ++ [now])
  let bs2 := setBucket bs1 key ae.2
  let bs3 := if ae.2.isEmpty then removeBucket bs2 key else bs2
  let bs4 :=
    if bs3.length > rl.sweep_threshold then sweepBuckets rl.window now bs3 else bs3
  (ae.1, bs4)

/-- The manifest fields the lifecycle claims depend on
(manifest.rs, `ServiceManifest`). -/
structure ServiceManifest where
  clear_log_on_start : Bool
  auto_restart : Bool
  cwd : Option String
  shutdown_command : Option String
  deriving Repr, DecidableEq

/-- The per-service world the lifecycle engine mutates: the log file (as
a list of lines), the pidfile, the registry entry, and the handle's
stop_requested flag. -/
structure StartWorld where
  log : List String
  pidfile : Option Nat
  registry_present : Bool
  stop_requested : Bool
  deriving Repr, DecidableEq

/-- ServiceManager::start (manager/lifecycle.rs) over an abstract world:
`status_running` is the status(id) answer, `policy_ok` the
enforce_policy verdict, `cwd_exists` whether the manifest cwd exists,
`spawn` the pty spawn outcome (pid, or an error message), and
`early_exit` the debug-formatted exit status when the child dies inside
the 300 ms settle window. On success the returned pid is the new
status' pid. -/
def ServiceManager.start (id : String) (m : ServiceManifest)
    (status_running : Bool) (policy_ok cwd_exists : Bool)
    (spawn : Except String Nat) (early_exit : Option String) (w : StartWorld) :
    Except ServiceError Nat × StartWorld :=
  if status_running then (.error (.AlreadyRunning id), w)
  else
    let w1 := if m.clear_log_on_start then { w with log := [] } else w
    if !policy_ok then (.error (.PolicyViolation "command or cwd not allowed"), w1)
    else if m.cwd.isSome && !cwd_exists then
      (.error (.SpawnFailed ("working directory not found: " ++ m.cwd.getD "")), w1)
    else
      match spawn with
      | .error e => (.error (.SpawnFailed e), w1)
      | .ok pid =>
        let w2 := { w1 with registry_present := true, pidfile := some pid,
                            stop_requested := false }
        match early_exit with
        | some st =>
          let msg := "process exited immediately: " ++ st
          (.error (.SpawnFailed msg),
           { w2 with pidfile := none, registry_present := false,
                     log := w2.log ++ [msg] })
        | none => (.ok pid, w2)

/-- ServiceManager::spawn_wait_handler (manager/lifecycle.rs): the
post-spawn waiter's effect once child.wait() returns. `wait_ok` holds
the debug-formatted exit status when wait succeeded. The results are the
new world, the number of start(id) restart attempts triggered, and the
pre-restart sleep in seconds. -/
def ServiceManager.spawn_wait_handler (wait_ok : Option String)
    (auto_restart stop_flag : Bool) (w : StartWorld) : StartWorld × Nat × Nat :=
  let w1 :=
    match wait_ok with
    | some st => { w with log := w.log ++ ["process exited: " ++ st] }
    | none => w
  let w2 := { w1 with pidfile := none, registry_present := false }
  if auto_restart && !stop_flag then (w2, 1, 1) else (w2, 0, 0)

/-- ServiceManager::shutdown (manager/lifecycle.rs), restricted to its
effect on the runtime handle's stop_requested flag (the shutdown command
itself goes to the pty input channel, outside this world). -/
def ServiceManager.shutdown (id : String) (status_running : Bool)
    (w : StartWorld) : Except ServiceError Unit × StartWorld :=
  if !status_running then (.error (.NotRunning id), w)
  else
    let w1 :=
      if w.registry_present then { w with stop_requested := true } else w
    (.ok (), w1)

/-- ServiceManager::kill (manager/lifecycle.rs), restricted to its world
effects on the path where the process dies within the 1 s wait:
the handle's stop flag is set when a handle exists, the registry entry
is removed, and the pidfile deleted. `pid_known` tells whether a pidfile
pid exists when the registry holds no handle. -/
def ServiceManager.kill (id : String) (pid_known : Bool) (w : StartWorld) :
    Except ServiceError Unit × StartWorld :=
  if !(w.registry_present || pid_known) then (.error (.NotRunning id), w)
  else
    let w1 :=
      if w.registry_present then { w with stop_requested := true } else w
    (.ok (), { w1 with registry_present := false, pidfile := none })

/-- Log size bound (manager/lifecycle.rs, `LOG_MAX_SIZE`, 2 MiB). -/
def LOG_MAX_SIZE : Nat := 2 * 1024 * 1024

/-- Retained size after truncation (`LOG_RETAIN_SIZE`, 1 MiB). -/
def LOG_RETAIN_SIZE : Nat := 1 * 1024 * 1024

/-- Size-check interval factor (`LOG_CHECK_INTERVAL`); the output worker
checks the file size after every `LOG_CHECK_INTERVAL * 100` bytes. -/
def LOG_CHECK_INTERVAL : Nat := 100

/-- Byte sequence of the sentinel line truncate_log_file writes. -/
def TRUNC_SENTINEL : List Nat := "[... log truncated ...]\n".toList.map Char.toNat

/-- Position of the first newline byte, mirroring
`retained.iter().position(|&b| b == b'\n')`. -/
def firstNewlinePos : List Nat → Option Nat
  | [] => none
  | b :: rest => if b == 10 then some 0 else (firstNewlinePos rest).map (· + 1)

/-- truncate_log_file (manager/lifecycle.rs) as a function on the file's
bytes: keep the trailing `retain_size` bytes, advance past the first
newline among them, and prepend the sentinel line. Files no larger than
`retain_size` are left untouched. -/
def truncate_log_file (content : List Nat) (retain_size : Nat) : List Nat :=
  if content.length ≤ retain_size then content
  else
    let retained := content.drop (content.length - retain_size)
    let line_start :=
      match firstNewlinePos retained with
      | some i => i + 1
      | none => 0
    TRUNC_SENTINEL ++ retained.drop line_start

/-- The periodic size check in spawn_output_handler
(manager/lifecycle.rs): truncation to LOG_RETAIN_SIZE runs exactly when
the file is larger than LOG_MAX_SIZE. -/
def rollCheck (content : List Nat) : List Nat :=
  if content.length > LOG_MAX_SIZE then truncate_log_file content LOG_RETAIN_SIZE
  else content

/-! Concrete fixtures used by counterexamples and witnesses. -/

/-- A UserManager with the default configuration
(user/manager.rs, `UserManager::new`). -/
def mgr0 : UserManager :=
  { jwt_issuer := "hypercraft-api", jwt_audience := "hypercraft-clients",
    access_token_ttl := 15 * 60, refresh_token_ttl := 7 * 24 * 3600 }

/-- A stored user holding permission on service `svc1`. -/
def userAlice : User :=
  { id := "u1", username := "alice", password_hash := "hash1",
    service_ids := ["svc1"], token_version := 3, refresh_nonce := "nonce0",
    created_at := some 0, updated_at := some 0 }

/-- Bridge between `List.contains` (used by the Rust translation) and
list membership. -/
lemma containsIffMem {α : Type} [BEq α] [LawfulBEq α] (l : List α) (a : α) :
    l.contains a = true ↔ a ∈ l := by
  simp [List.contains, List.elem_iff]

/-- C1: on an unknown username, login returns Unauthorized after zero
bcrypt verifications, while the wrong-password path performs one; the
fake-verification requirement of the spec is not implemented. -/
theorem login_unknown_user_skips_fake_verify :
    (login mgr0 [] 0 "n1" (fun _ _ => false) "ghost" "pw").2 = 0
  ∧ (login mgr0 [] 0 "n1" (fun _ _ => false) "ghost" "pw").1 =
      .error (.Unauthorized "invalid credentials")
  ∧ (login mgr0 [userAlice] 0 "n1" (fun _ _ => false) "alice" "wrong").2 = 1 := by
  refine ⟨rfl, rfl, ?_⟩
  simp [login, find_by_username, userAlice]

/-- C2 counterexample: the middleware admits a token-less request to
`/auth/devtoken`, a path outside the claim's three-element public list,
so the public paths are not exactly /health, /auth/login and
/auth/refresh. -/
theorem auth_middleware_devtoken_public :
    auth_middleware "/auth/devtoken" none (fun _ => .error (.Unauthorized "no")) true
      = MwOutcome.Admitted none
  ∧ "/auth/devtoken" ∉ (["/health", "/auth/login", "/auth/refresh"] : List String) := by
  exact ⟨by decide, by decide⟩

/-- C2 (amended): the middleware admits a token-less request exactly on
the four PUBLIC_PATHS (/health, /auth/login, /auth/devtoken,
/auth/refresh); on any other path a request with no token, or with a
token that fails verification, is rejected as unauthorized or, when the
auth limiter denies the client, as too-many-requests. -/
theorem auth_middleware_public_paths (path : String)
    (verify : String → Except ServiceError TokenClaims) (la : Bool) :
    (auth_middleware path none verify la = .Admitted none ↔ path ∈ PUBLIC_PATHS)
  ∧ (path ∉ PUBLIC_PATHS →
      auth_middleware path none verify la = .UnauthorizedRejected ∨
      auth_middleware path none verify la = .TooManyRequestsRejected)
  ∧ (∀ t e, path ∉ PUBLIC_PATHS → verify t = .error e →
      auth_middleware path (some t) verify la = .UnauthorizedRejected ∨
      auth_middleware path (some t) verify la = .TooManyRequestsRejected) := by
  by_cases h : path ∈ PUBLIC_PATHS
  · have hc : PUBLIC_PATHS.contains path = true := by
      simpa [containsIffMem] using h
    refine ⟨?_, fun hn => absurd h hn, fun t e hn => absurd h hn⟩
    simp [auth_middleware, hc, h]
  · have hc : PUBLIC_PATHS.contains path = false := by
      simpa [containsIffMem] using h
    refine ⟨?_, ?_, ?_⟩
    · simp only [auth_middleware, hc, if_false, Bool.false_eq_true]
      cases la <;> simp [h]
    · intro _
      simp only [auth_middleware, hc, Bool.false_eq_true, if_false]
      cases la <;> simp
    · intro t e _ hv
      simp only [auth_middleware, hc, Bool.false_eq_true, if_false, hv]
      cases la <;> simp

/-- C2 amended-claim witness at a concrete non-public path. -/
theorem auth_middleware_public_paths_witness :
    ("/services" ∉ PUBLIC_PATHS) ∧
    (auth_middleware "/services" none (fun _ => .error (.Unauthorized "no")) true
        = .Admitted none ↔ "/services" ∈ PUBLIC_PATHS) ∧
    (auth_middleware "/services" none (fun _ => .error (.Unauthorized "no")) true
        = .UnauthorizedRejected ∨
     auth_middleware "/services" none (fun _ => .error (.Unauthorized "no")) true
        = .TooManyRequestsRejected) := by
  have h := auth_middleware_public_paths "/services"
    (fun _ => .error (.Unauthorized "no")) true
  exact ⟨by decide, h.1, h.2.1 (by decide)⟩

/-- C10: granting an already-held service permission is a no-op: the
call returns the stored user unchanged (service_ids, token_version,
refresh_nonce and updated_at included), leaves the store unchanged, and
performs zero disk writes. -/
theorem add_service_permission_noop (s : Store) (now : Int)
    (uid svc fg fr : String) (u : User)
    (hu : getUserRaw s uid = some u)
    (hne : u.refresh_nonce.isEmpty = false)
    (hin : u.service_ids.contains svc = true) :
    add_service_permission s now uid svc fg fr = .ok (u, s, 0) := by
  unfold add_service_permission get_user
  rw [hu]
  simp [hne, hin]
  exact (containsIffMem _ _).mp hin

/-- C10 witness: the no-op theorem applied to a concrete store
and an already-held permission. -/
theorem add_service_permission_noop_witness :
    (getUserRaw [userAlice] "u1" = some userAlice
      ∧ userAlice.refresh_nonce.isEmpty = false
      ∧ userAlice.service_ids.contains "svc1" = true)
  ∧ add_service_permission [userAlice] 5 "u1" "svc1" "g" "r"
      = .ok (userAlice, [userAlice], 0) := by
  refine ⟨⟨by decide, by decide, by decide⟩, ?_⟩
  exact add_service_permission_noop [userAlice] 5 "u1" "svc1" "g" "r" userAlice
    (by decide) (by decide) (by decide)

/-- A concrete world with a previous log line, a pidfile and a live
registry handle. -/
def world0 : StartWorld :=
  { log := ["boot"], pidfile := some 42, registry_present := true,
    stop_requested := false }

/-- A concrete manifest with log clearing and auto restart enabled. -/
def manifest0 : ServiceManifest :=
  { clear_log_on_start := true, auto_restart := true, cwd := some "/srv",
    shutdown_command := some "stop" }

/-- C5: start on a Running service returns AlreadyRunning and changes
nothing; and when the spawned child exits within the 300 ms settle
window, start removes the pidfile and the registry entry, appends the
'process exited immediately' line to the log, and returns SpawnFailed
instead of Ok. -/
theorem start_already_running_and_settle_abort (id : String)
    (m : ServiceManifest) (pol cw : Bool) (sp : Except String Nat) (pid : Nat)
    (st : String) (early : Option String) (w : StartWorld) :
    (ServiceManager.start id m true pol cw sp early w
        = (.error (.AlreadyRunning id), w))
  ∧ (pol = true → (m.cwd = none ∨ cw = true) → sp = .ok pid →
      ServiceManager.start id m false pol cw sp (some st) w =
        (.error (.SpawnFailed ("process exited immediately: " ++ st)),
         { log := (if m.clear_log_on_start then [] else w.log)
             ++ ["process exited immediately: " ++ st],
           pidfile := none, registry_present := false,
           stop_requested := false })) := by
  constructor
  · simp [ServiceManager.start]
  · rintro rfl hcw rfl
    rcases hcw with h | rfl
    · by_cases hc : m.clear_log_on_start <;>
        simp [ServiceManager.start, h, hc]
    · by_cases hc : m.clear_log_on_start <;> cases hm : m.cwd <;>
        simp [ServiceManager.start, hc, hm]

/-- C5 witness: the settle-window abort at a concrete manifest, world
and exit status. -/
theorem start_settle_abort_witness :
    (ServiceManager.start "svc" manifest0 true true true (.ok 7) none world0
        = (.error (.AlreadyRunning "svc"), world0))
  ∧ (ServiceManager.start "svc" manifest0 false true true (.ok 7)
        (some "ExitStatus(1)") world0 =
      (.error (.SpawnFailed "process exited immediately: ExitStatus(1)"),
       { log := ["process exited immediately: ExitStatus(1)"],
         pidfile := none, registry_present := false,
         stop_requested := false })) := by
  have h := start_already_running_and_settle_abort "svc" manifest0 true true
    (.ok 7) 7 "ExitStatus(1)" none world0
  refine ⟨h.1, ?_⟩
  have h2 := h.2 rfl (Or.inr rfl) rfl
  simpa [manifest0, world0] using h2

/-- C9: with clear_log_on_start set and the service Stopped, start
truncates the log before enforcing policy and before checking the
working directory, so a PolicyViolation or a missing-cwd SpawnFailed
still leaves the log erased; the clear is not rolled back on error. -/
theorem start_clears_log_before_policy_and_cwd (id : String)
    (m : ServiceManifest) (c : String) (cw : Bool) (sp : Except String Nat)
    (early : Option String) (w : StartWorld)
    (hclear : m.clear_log_on_start = true) :
    (ServiceManager.start id m false false cw sp early w =
        (.error (.PolicyViolation "command or cwd not allowed"),
         { w with log := [] }))
  ∧ (m.cwd = some c →
      ServiceManager.start id m false true false sp early w =
        (.error (.SpawnFailed ("working directory not found: " ++ c)),
         { w with log := [] })) := by
  constructor
  · simp [ServiceManager.start, hclear]
  · intro hc
    simp [ServiceManager.start, hclear, hc]

/-- C9 witness: both failing starts at a concrete manifest and world,
with the previous log contents erased. -/
theorem start_clears_log_witness :
    manifest0.clear_log_on_start = true
  ∧ (ServiceManager.start "svc" manifest0 false false true (.ok 7) none world0 =
      (.error (.PolicyViolation "command or cwd not allowed"),
       { world0 with log := [] }))
  ∧ (ServiceManager.start "svc" manifest0 false true false (.ok 7) none world0 =
      (.error (.SpawnFailed "working directory not found: /srv"),
       { world0 with log := [] })) := by
  have h := start_clears_log_before_policy_and_cwd "svc" manifest0 "/srv" true
    (.ok 7) none world0 rfl
  exact ⟨rfl, h.1, by simpa using h.2 rfl⟩

/-- C6: once child.wait() returns an exit status, the post-spawn waiter
appends the 'process exited' sentinel, removes the pidfile and the
registry entry, and triggers exactly one restart attempt after a 1 s
sleep iff auto_restart is set and stop_requested is not; shutdown and
kill set stop_requested on the live handle, so no restart follows
them. -/
theorem spawn_wait_handler_cleanup_and_restart (st : String) (ar stop : Bool)
    (w : StartWorld) (id : String) :
    ((ServiceManager.spawn_wait_handler (some st) ar stop w).1.log
        = w.log ++ ["process exited: " ++ st])
  ∧ ((ServiceManager.spawn_wait_handler (some st) ar stop w).1.pidfile = none)
  ∧ ((ServiceManager.spawn_wait_handler (some st) ar stop w).1.registry_present
        = false)
  ∧ ((ServiceManager.spawn_wait_handler (some st) ar stop w).2.1 = 1
       ↔ (ar = true ∧ stop = false))
  ∧ ((ServiceManager.spawn_wait_handler (some st) ar stop w).2.1 = 1 ∨
     (ServiceManager.spawn_wait_handler (some st) ar stop w).2.1 = 0)
  ∧ (stop = true → (ServiceManager.spawn_wait_handler (some st) ar stop w).2.1 = 0)
  ∧ ((ServiceManager.spawn_wait_handler (some st) ar stop w).2.1 = 1 →
       (ServiceManager.spawn_wait_handler (some st) ar stop w).2.2 = 1)
  ∧ (w.registry_present = true →
       (ServiceManager.shutdown id true w).2.stop_requested = true)
  ∧ (w.registry_present = true →
       (ServiceManager.kill id true w).2.stop_requested = true) := by
  refine ⟨?_, ?_, ?_, ?_, ?_, ?_, ?_, ?_, ?_⟩
  · cases ar <;> cases stop <;> simp [ServiceManager.spawn_wait_handler]
  · cases ar <;> cases stop <;> simp [ServiceManager.spawn_wait_handler]
  · cases ar <;> cases stop <;> simp [ServiceManager.spawn_wait_handler]
  · cases ar <;> cases stop <;> simp [ServiceManager.spawn_wait_handler]
  · cases ar <;> cases stop <;> simp [ServiceManager.spawn_wait_handler]
  · cases ar <;> cases stop <;> simp [ServiceManager.spawn_wait_handler]
  · cases ar <;> cases stop <;> simp [ServiceManager.spawn_wait_handler]
  · intro h
    simp [ServiceManager.shutdown, h]
  · intro h
    simp [ServiceManager.kill, h]

/-- C6 witness: the waiter at a concrete exit status and world; with
auto_restart on and no stop request there is one restart attempt after a
1 s sleep, and a stop-requested run yields none. -/
theorem spawn_wait_handler_witness :
    (ServiceManager.spawn_wait_handler (some "ExitStatus(0)") true false world0
      = ({ log := ["boot", "process exited: ExitStatus(0)"], pidfile := none,
           registry_present := false, stop_requested := false }, 1, 1))
  ∧ ((ServiceManager.spawn_wait_handler (some "ExitStatus(0)") true true world0).2.1
      = 0)
  ∧ ((ServiceManager.shutdown "svc" true world0).2.stop_requested = true) := by
  have h1 := spawn_wait_handler_cleanup_and_restart "ExitStatus(0)" true false
    world0 "svc"
  have h2 := spawn_wait_handler_cleanup_and_restart "ExitStatus(0)" true true
    world0 "svc"
  refine ⟨?_, h2.2.2.2.2.2.1 rfl, h1.2.2.2.2.2.2.2.1 rfl⟩
  rfl

/-- C4 counterexample: add_service_permission on an already-held
service id succeeds but leaves token_version and refresh_nonce exactly
as stored, so not every successful call of the four listed mutations
bumps the version and rotates the nonce. -/
theorem add_permission_without_bump :
    add_service_permission [userAlice] 6 "u1" "svc1" "g2" "r2"
      = .ok (userAlice, [userAlice], 0)
  ∧ userAlice.token_version = 3
  ∧ userAlice.refresh_nonce = "nonce0" := by
  exact ⟨rfl, rfl, rfl⟩

/-- C4 (amended): change_password and remove_service_permission bump
token_version (saturating u64 increment) and rotate refresh_nonce on
every successful call; update_user does so whenever the request carries
a password or a service_ids list; add_service_permission does so when
the service id was not already held; and verify_token rejects as
Unauthorized any token whose token_version differs from the user's
stored token_version. -/
theorem mutations_bump_version_and_revoke :
    (∀ (s : Store) (now : Int) (uid : String) (cur : Option String)
        (npw : String) (force : Bool) (bv : String → String → Bool)
        (nh fg fr : String) (u u2 : User) (s1 s2 : Store) (wr : Nat),
        get_user s uid fg = .ok (u, s1, wr) →
        change_password s now uid cur npw force bv nh fg fr = .ok (u2, s2) →
        u2.token_version = satAdd1 u.token_version ∧ u2.refresh_nonce = fr)
  ∧ (∀ (s : Store) (now : Int) (uid svc fg fr : String) (u u2 : User)
        (s1 s2 : Store) (wr wr2 : Nat),
        get_user s uid fg = .ok (u, s1, wr) →
        remove_service_permission s now uid svc fg fr = .ok (u2, s2, wr2) →
        u2.token_version = satAdd1 u.token_version ∧ u2.refresh_nonce = fr)
  ∧ (∀ (s : Store) (now : Int) (uid : String) (req : UpdateUserRequest)
        (nh fg fr fe : String) (u u2 : User) (s1 s2 : Store) (wr : Nat),
        get_user s uid fg = .ok (u, s1, wr) →
        (req.password.isSome || req.service_ids.isSome) = true →
        fr.isEmpty = false →
        update_user s now uid req nh fg fr fe = .ok (u2, s2) →
        u2.token_version = satAdd1 u.token_version ∧ u2.refresh_nonce = fr)
  ∧ (∀ (s : Store) (now : Int) (uid svc fg fr : String) (u u2 : User)
        (s1 s2 : Store) (wr wr2 : Nat),
        get_user s uid fg = .ok (u, s1, wr) →
        u.service_ids.contains svc = false →
        add_service_permission s now uid svc fg fr = .ok (u2, s2, wr2) →
        u2.token_version = satAdd1 u.token_version ∧ u2.refresh_nonce = fr)
  ∧ (∀ (m : UserManager) (s : Store) (now : Int) (fg : String)
        (c : TokenClaims) (u : User) (s1 : Store) (wr : Nat),
        ¬ c.exp < now - JWT_LEEWAY →
        c.iss = some m.jwt_issuer →
        c.aud = some m.jwt_audience →
        c.token_type ≠ TokenType.Dev →
        get_user s c.sub fg = .ok (u, s1, wr) →
        c.token_version ≠ u.token_version →
        verify_token m s now fg c = .error (.Unauthorized "token revoked"))
  ∧ (∀ v : Nat, v < U64_MAX → satAdd1 v = v + 1) := by
  refine ⟨?_, ?_, ?_, ?_, ?_, ?_⟩
  · intro s now uid cur npw force bv nh fg fr u u2 s1 s2 wr hget hcp
    unfold change_password at hcp
    rw [hget] at hcp
    dsimp only at hcp
    split at hcp
    · exact absurd hcp (by simp)
    · split at hcp
      · exact absurd hcp (by simp)
      · rw [Except.ok.injEq, Prod.mk.injEq] at hcp
        rw [← hcp.1]
        exact ⟨rfl, rfl⟩
  · intro s now uid svc fg fr u u2 s1 s2 wr wr2 hget hrm
    unfold remove_service_permission at hrm
    rw [hget] at hrm
    dsimp only at hrm
    rw [Except.ok.injEq, Prod.mk.injEq] at hrm
    rw [← hrm.1]
    exact ⟨rfl, rfl⟩
  · intro s now uid req nh fg fr fe u u2 s1 s2 wr hget hreq hfr hup
    unfold update_user at hup
    split at hup
    · exact absurd hup (by simp)
    · rw [hget] at hup
      rcases hpw : req.password with _ | pw <;> rw [hpw] at hup
      · rcases hsi : req.service_ids with _ | ids <;> rw [hsi] at hup
        · rw [hpw, hsi] at hreq
          simp at hreq
        · simp [hfr] at hup
          obtain ⟨h1, h2⟩ := hup
          rw [← h1]
          exact ⟨rfl, rfl⟩
      · dsimp only at hup
        rcases hval : validate_password_strength pw with e | un <;>
          rw [hval] at hup
        · exact absurd hup (by simp)
        · rcases hsi : req.service_ids with _ | ids <;> rw [hsi] at hup
          · simp [hfr] at hup
            obtain ⟨h1, h2⟩ := hup
            rw [← h1]
            exact ⟨rfl, rfl⟩
          · simp [hfr] at hup
            obtain ⟨h1, h2⟩ := hup
            rw [← h1]
            exact ⟨rfl, rfl⟩
  · intro s now uid svc fg fr u u2 s1 s2 wr wr2 hget hni hadd
    unfold add_service_permission at hadd
    rw [hget] at hadd
    dsimp only at hadd
    rw [hni] at hadd
    simp at hadd
    obtain ⟨h1, h2⟩ := hadd
    rw [← h1]
    exact ⟨rfl, rfl⟩
  · intro m s now fg c u s1 wr hexp hiss haud hdev hget hver
    unfold verify_token decodeToken
    rw [if_neg hexp, if_neg (by simp [hiss]), if_neg (by simp [haud])]
    dsimp only
    rw [if_neg hdev, hget]
    dsimp only
    rw [if_pos hver]
  · intro v hv
    unfold satAdd1
    omega

/-- The user userAlice after a forced password change at time 9 with
new hash hash2 and rotated nonce r9. -/
def userAlice2 : User :=
  { id := "u1", username := "alice", password_hash := "hash2",
    service_ids := ["svc1"], token_version := 4, refresh_nonce := "r9",
    created_at := some 0, updated_at := some 9 }

/-- C4 amended-claim witness: a password change at concrete inputs bumps
the version from 3 to 4 and rotates the nonce. -/
theorem mutations_bump_version_witness :
    (get_user [userAlice] "u1" "g" = .ok (userAlice, [userAlice], 0)
      ∧ change_password [userAlice] 9 "u1" none "NewPass1" true
          (fun _ _ => true) "hash2" "g" "r9" = .ok (userAlice2, [userAlice2]))
  ∧ userAlice2.token_version = satAdd1 userAlice.token_version
  ∧ userAlice2.refresh_nonce = "r9" := by
  refine ⟨⟨rfl, rfl⟩, ?_, ?_⟩
  · exact (mutations_bump_version_and_revoke.1 [userAlice] 9 "u1" none "NewPass1"
      true (fun _ _ => true) "hash2" "g" "r9" userAlice userAlice2 [userAlice]
      [userAlice2] 0 rfl rfl).1
  · exact (mutations_bump_version_and_revoke.1 [userAlice] 9 "u1" none "NewPass1"
      true (fun _ _ => true) "hash2" "g" "r9" userAlice userAlice2 [userAlice]
      [userAlice2] 0 rfl rfl).2

/-- Finding by id after replacing the matching record yields the
replacement exactly when a match existed. -/
lemma find_map_replace (s : List User) (u : User) :
    (s.map (fun v => if v.id == u.id then u else v)).find? (fun v => v.id == u.id)
      = (s.find? (fun v => v.id == u.id)).map (fun _ => u) := by
  induction s with
  | nil => rfl
  | cons a t ih =>
    by_cases h : (a.id == u.id) = true
    · simp [List.find?, h]
    · simp only [List.map_cons, if_neg h]
      rw [List.find?_cons_of_neg (p := fun v => v.id == u.id) (a := a) _ h,
        List.find?_cons_of_neg (p := fun v => v.id == u.id) (a := a) _ h, ih]

/-- Persisting a user makes it the record found under its id. -/
lemma getUserRaw_persistUser_self (s : Store) (u : User) :
    getUserRaw (persistUser s u) u.id = some u := by
  unfold getUserRaw persistUser
  by_cases h : (s.find? (fun v => v.id == u.id)).isSome = true
  · rw [if_pos h, find_map_replace]
    obtain ⟨w, hw⟩ := Option.isSome_iff_exists.mp h
    rw [hw]
    rfl
  · rw [if_neg h]
    exact List.find?_cons_of_pos _ (by simp)

/-- C3: a refresh token is single-use. Under a store holding the user
with a non-empty nonce, and a refresh-token claim set matching stored
state, refresh succeeds, rotates the stored refresh_nonce to the fresh
uuid and re-issues both tokens; replaying the same refresh token against
the updated store is rejected as Unauthorized (refresh token revoked). -/
theorem refresh_token_single_use (m : UserManager) (s : Store) (u : User)
    (c : TokenClaims) (now : Int) (fg fr : String)
    (hu : getUserRaw s u.id = some u)
    (hne : u.refresh_nonce.isEmpty = false)
    (hfr : fr.isEmpty = false)
    (hdiff : fr ≠ u.refresh_nonce)
    (hsub : c.sub = u.id)
    (hty : c.token_type = TokenType.Refresh)
    (hver : c.token_version = u.token_version)
    (hnon : c.refresh_nonce = some u.refresh_nonce)
    (hexp : ¬ c.exp < now - JWT_LEEWAY)
    (hiss : c.iss = some m.jwt_issuer)
    (haud : c.aud = some m.jwt_audience) :
    ∃ ts : AuthToken × Store, refresh m s now fg fr c = .ok ts
      ∧ (getUserRaw ts.2 u.id).map User.refresh_nonce = some fr
      ∧ ts.1.access_claims.token_type = TokenType.User
      ∧ ts.1.refresh_claims.token_type = TokenType.Refresh
      ∧ ts.1.refresh_claims.refresh_nonce = some fr
      ∧ ts.1.access_claims.token_version = u.token_version
      ∧ (∀ fg2 fr2, refresh m ts.2 now fg2 fr2 c
            = .error (.Unauthorized "refresh token revoked")) := by
  have hgu : get_user s u.id fg = .ok (u, s, 0) := by
    unfold get_user
    rw [hu]
    simp [hne]
  have hvt : verify_token m s now fg c = .ok (c, s) := by
    unfold verify_token decodeToken
    rw [if_neg hexp, if_neg (by simp [hiss]), if_neg (by simp [haud])]
    dsimp only
    rw [if_neg (by simp [hty]), hsub, hgu]
    dsimp only
    rw [if_neg (by simp [hver]), hty, if_pos rfl, hnon]
    dsimp only
    rw [if_neg (by simp)]
  have hmain : refresh m s now fg fr c = .ok (issue_tokens m s now fr u true) := by
    unfold refresh
    rw [hvt]
    dsimp only
    rw [if_neg (by simp [hty]), hsub, hgu]
  have h2 : getUserRaw (issue_tokens m s now fr u true).2 u.id
      = some { u with refresh_nonce := fr, updated_at := some now } :=
    getUserRaw_persistUser_self s
      { u with refresh_nonce := fr, updated_at := some now }
  refine ⟨issue_tokens m s now fr u true, hmain, ?_, rfl, rfl, rfl, rfl, ?_⟩
  · rw [h2]
    rfl
  · intro fg2 fr2
    have hgu2 : get_user (issue_tokens m s now fr u true).2 u.id fg2
        = .ok ({ u with refresh_nonce := fr, updated_at := some now },
               (issue_tokens m s now fr u true).2, 0) := by
      unfold get_user
      rw [h2]
      simp [hfr]
    have hvt2 : verify_token m (issue_tokens m s now fr u true).2 now fg2 c
        = .error (.Unauthorized "refresh token revoked") := by
      unfold verify_token decodeToken
      rw [if_neg hexp, if_neg (by simp [hiss]), if_neg (by simp [haud])]
      dsimp only
      rw [if_neg (by simp [hty]), hsub, hgu2]
      dsimp only
      rw [if_neg (by simp [hver]), hty, if_pos rfl, hnon]
      dsimp only
      rw [if_pos (Ne.symm hdiff)]
    unfold refresh
    rw [hvt2]

/-- A refresh claim set matching userAlice's stored state. -/
def claimsAliceRefresh : TokenClaims :=
  { sub := "u1", username := "alice", iss := some "hypercraft-api",
    aud := some "hypercraft-clients", token_type := TokenType.Refresh,
    service_ids := [], token_version := 3, refresh_nonce := some "nonce0",
    exp := 700000, iat := 0 }

/-- C3 witness: the single-use property at a concrete store, user and
refresh claim set. -/
theorem refresh_token_single_use_witness :
    (getUserRaw [userAlice] userAlice.id = some userAlice
      ∧ ("rot1" : String) ≠ userAlice.refresh_nonce
      ∧ ¬ claimsAliceRefresh.exp < (1000 : Int) - JWT_LEEWAY)
  ∧ (∃ ts : AuthToken × Store,
      refresh mgr0 [userAlice] 1000 "g" "rot1" claimsAliceRefresh = .ok ts
      ∧ (getUserRaw ts.2 userAlice.id).map User.refresh_nonce = some "rot1"
      ∧ ts.1.access_claims.token_type = TokenType.User
      ∧ ts.1.refresh_claims.token_type = TokenType.Refresh
      ∧ ts.1.refresh_claims.refresh_nonce = some "rot1"
      ∧ ts.1.access_claims.token_version = userAlice.token_version
      ∧ (∀ fg2 fr2, refresh mgr0 ts.2 1000 fg2 fr2 claimsAliceRefresh
            = .error (.Unauthorized "refresh token revoked"))) := by
  refine ⟨⟨rfl, by decide, by decide⟩, ?_⟩
  exact refresh_token_single_use mgr0 [userAlice] userAlice claimsAliceRefresh
    1000 "g" "rot1" rfl rfl rfl (by decide) rfl rfl rfl rfl (by decide) rfl rfl

/-- Every bucket stored under `key` holds exactly the value `v`. -/
def AllVal (bs : Buckets) (key : String) (v : List Nat) : Prop :=
  ∀ p ∈ bs, p.1 = key → p.2 = v

/-- find? on a cons whose head matches the key. -/
lemma find_cons_pos (p : String × List Nat) (t : Buckets) (key : String)
    (h : (p.1 == key) = true) :
    (p :: t).find? (fun q => q.1 == key) = some p :=
  List.find?_cons_of_pos _ h

/-- find? on a cons whose head misses the key. -/
lemma find_cons_neg (p : String × List Nat) (t : Buckets) (key : String)
    (h : ¬ (p.1 == key) = true) :
    (p :: t).find? (fun q => q.1 == key) = t.find? (fun q => q.1 == key) :=
  List.find?_cons_of_neg _ h

/-- An absent key reads as the empty list. -/
lemma lookup_of_not_contains (bs : Buckets) (key : String)
    (h : containsBucket bs key = false) : lookupBucket bs key = [] := by
  unfold containsBucket at h
  unfold lookupBucket
  cases hf : bs.find? (fun p => p.1 == key) with
  | none => rfl
  | some p =>
    rw [hf] at h
    simp at h

/-- When every `key` bucket holds `v` and one exists, lookup yields `v`. -/
lemma lookup_of_allval (bs : Buckets) (key : String) (v : List Nat)
    (hav : AllVal bs key v) (hc : containsBucket bs key = true) :
    lookupBucket bs key = v := by
  induction bs with
  | nil => simp [containsBucket] at hc
  | cons p t ih =>
    by_cases hp : (p.1 == key) = true
    · unfold lookupBucket
      rw [find_cons_pos _ _ _ hp]
      exact hav p (List.mem_cons_self p t) (by simpa using hp)
    · have hc2 : containsBucket t key = true := by
        unfold containsBucket at hc ⊢
        rwa [find_cons_neg _ _ _ hp] at hc
      have hav2 : AllVal t key v := fun q hq => hav q (List.mem_cons_of_mem p hq)
      unfold lookupBucket at ih ⊢
      rw [find_cons_neg _ _ _ hp]
      exact ih hav2 hc2

/-- setBucket makes every `key` bucket hold the written value. -/
lemma allval_set (bs : Buckets) (key : String) (v : List Nat) :
    AllVal (setBucket bs key v) key v := by
  intro p hp hk
  unfold setBucket at hp
  obtain ⟨q, hq, hmap⟩ := List.mem_map.mp hp
  by_cases h : (q.1 == key) = true
  · rw [if_pos h] at hmap
    rw [← hmap]
  · rw [if_neg h] at hmap
    rw [← hmap] at hk
    exact absurd (by simpa using hk) (by simpa using h)

/-- setBucket preserves key presence. -/
lemma contains_set (bs : Buckets) (key : String) (v : List Nat) :
    containsBucket (setBucket bs key v) key = containsBucket bs key := by
  induction bs with
  | nil => rfl
  | cons p t ih =>
    unfold setBucket at ih ⊢
    unfold containsBucket at ih ⊢
    by_cases hp : (p.1 == key) = true
    · rw [List.map_cons, if_pos hp, find_cons_pos (p.1, v) _ _ (by simpa using hp),
        find_cons_pos _ _ _ hp]
      rfl
    · rw [List.map_cons, if_neg hp, find_cons_neg _ _ _ hp, find_cons_neg _ _ _ hp]
      exact ih

/-- removeBucket erases the key. -/
lemma contains_remove (bs : Buckets) (key : String) :
    containsBucket (removeBucket bs key) key = false := by
  induction bs with
  | nil => rfl
  | cons p t ih =>
    unfold removeBucket at ih ⊢
    unfold containsBucket at ih ⊢
    by_cases hp : (p.1 == key) = true
    · rw [List.filter_cons, if_neg (by simpa using hp)]
      exact ih
    · rw [List.filter_cons, if_pos (by simpa [bne] using hp), find_cons_neg _ _ _ hp]
      exact ih

/-- The sweep keeps only keys that were present. -/
lemma contains_sweep_false (w now : Nat) (bs : Buckets) (key : String)
    (h : containsBucket bs key = false) :
    containsBucket (sweepBuckets w now bs) key = false := by
  induction bs with
  | nil => rfl
  | cons p t ih =>
    unfold containsBucket at h ⊢
    unfold sweepBuckets at ih ⊢
    by_cases hp : (p.1 == key) = true
    · rw [find_cons_pos _ _ _ hp] at h
      simp at h
    · rw [find_cons_neg _ _ _ hp] at h
      rw [List.filterMap_cons]
      cases hd : (if (p.2.filter (fun t => now - t < w)).isEmpty = true then none
          else some (p.1, p.2.filter (fun t => now - t < w))) with
      | none => exact ih h
      | some q =>
        have hq1 : q.1 = p.1 := by
          by_cases he : (p.2.filter (fun t => now - t < w)).isEmpty = true
          · rw [if_pos he] at hd
            cases hd
          · rw [if_neg he] at hd
            cases hd
            rfl
        rw [find_cons_neg _ _ _ (by rw [hq1]; exact hp)]
        exact ih h

/-- The sweep prunes every surviving `key` bucket with the window
predicate. -/
lemma allval_sweep (w now : Nat) (bs : Buckets) (key : String) (v : List Nat)
    (hav : AllVal bs key v) :
    AllVal (sweepBuckets w now bs) key (v.filter (fun t => now - t < w)) := by
  intro p hp hk
  unfold sweepBuckets at hp
  obtain ⟨q, hq, hmap⟩ := List.mem_filterMap.mp hp
  by_cases he : (q.2.filter (fun t => now - t < w)).isEmpty = true
  · rw [if_pos he] at hmap
    cases hmap
  · rw [if_neg he] at hmap
    cases hmap
    rw [hav q hq hk]

/-- A `key` bucket that keeps a nonempty pruned value survives the
sweep. -/
lemma contains_sweep_of_nonempty (w now : Nat) (bs : Buckets) (key : String)
    (v : List Nat) (hav : AllVal bs key v) (hc : containsBucket bs key = true)
    (hne : (v.filter (fun t => now - t < w)).isEmpty = false) :
    containsBucket (sweepBuckets w now bs) key = true := by
  induction bs with
  | nil => simp [containsBucket] at hc
  | cons p t ih =>
    unfold containsBucket at hc ⊢
    unfold sweepBuckets
    by_cases hp : (p.1 == key) = true
    · have hpv : p.2 = v := hav p (List.mem_cons_self p t) (by simpa using hp)
      rw [List.filterMap_cons, hpv, if_neg (by simp [hne])]
      dsimp only
      rw [find_cons_pos (p.1, v.filter (fun t => now - t < w)) _ _ hp]
      rfl
    · rw [find_cons_neg _ _ _ hp] at hc
      have hav2 : AllVal t key v := fun q hq => hav q (List.mem_cons_of_mem p hq)
      have hrec := ih hav2 hc
      unfold containsBucket at hrec
      unfold sweepBuckets at hrec
      rw [List.filterMap_cons]
      cases hd : (if (p.2.filter (fun t => now - t < w)).isEmpty = true then none
          else some (p.1, p.2.filter (fun t => now - t < w))) with
      | none => exact hrec
      | some q =>
        have hq1 : q.1 = p.1 := by
          by_cases he : (p.2.filter (fun t => now - t < w)).isEmpty = true
          · rw [if_pos he] at hd
            cases hd
          · rw [if_neg he] at hd
            cases hd
            rfl
        rw [find_cons_neg _ _ _ (by rw [hq1]; exact hp)]
        exact hrec

/-- Filtering twice with the same predicate is filtering once. -/
lemma filter_self_idem (l : List Nat) (p : Nat → Bool) :
    (l.filter p).filter p = l.filter p := by
  induction l with
  | nil => rfl
  | cons a t ih =>
    by_cases h : p a = true <;> simp [List.filter_cons, h, ih]

/-- C8: allow(key) first prunes the key's recorded timestamps with the
sliding-window predicate, admits (appending the current instant) iff the
remaining count is strictly below the limit, and rejects without
recording otherwise. -/
theorem rate_limiter_allow_spec (rl : RateLimiter) (now : Nat) (key : String)
    (bs : Buckets) (hw : 0 < rl.window) :
    ((rl.allow now key bs).1 = true
        ↔ ((lookupBucket bs key).filter
             (fun t => now - t < rl.window)).length < rl.limit)
  ∧ lookupBucket (rl.allow now key bs).2 key =
      (if ((lookupBucket bs key).filter
             (fun t => now - t < rl.window)).length < rl.limit
       then (lookupBucket bs key).filter (fun t => now - t < rl.window) ++ [now]
       else (lookupBucket bs key).filter (fun t => now - t < rl.window)) := by
  have hc1 : containsBucket
      (if containsBucket bs key = true then bs else (key, []) :: bs) key = true := by
    by_cases hc : containsBucket bs key = true
    · rw [if_pos hc]
      exact hc
    · rw [if_neg hc]
      unfold containsBucket
      rw [find_cons_pos (key, []) _ _ (by simp)]
      rfl
  have hlk : lookupBucket
      (if containsBucket bs key = true then bs else (key, []) :: bs) key
        = lookupBucket bs key := by
    by_cases hc : containsBucket bs key = true
    · rw [if_pos hc]
    · rw [if_neg hc, lookup_of_not_contains bs key (by simpa using hc)]
      unfold lookupBucket
      rw [find_cons_pos (key, []) _ _ (by simp)]
  unfold RateLimiter.allow
  dsimp only
  set bs1 := if containsBucket bs key = true then bs else (key, []) :: bs with hbs1
  rw [hlk]
  set P := (lookupBucket bs key).filter (fun t => now - t < rl.window) with hP
  by_cases hlim : P.length ≥ rl.limit
  · rw [if_pos hlim]
    dsimp only
    refine ⟨⟨fun h => absurd h (by simp), fun h => absurd h (by omega)⟩, ?_⟩
    rw [if_neg (by omega : ¬ P.length < rl.limit)]
    by_cases hPe : P.isEmpty = true
    · rw [if_pos hPe]
      have hnil : P = [] := List.isEmpty_iff.mp hPe
      by_cases hsw :
          (removeBucket (setBucket bs1 key P) key).length > rl.sweep_threshold
      · rw [if_pos hsw,
          lookup_of_not_contains _ key
            (contains_sweep_false _ _ _ _ (contains_remove _ _))]
        exact hnil.symm
      · rw [if_neg hsw, lookup_of_not_contains _ key (contains_remove _ _)]
        exact hnil.symm
    · rw [if_neg hPe]
      have hset_av := allval_set bs1 key P
      have hset_c : containsBucket (setBucket bs1 key P) key = true := by
        rw [contains_set]
        exact hc1
      have hfilterP : P.filter (fun t => now - t < rl.window) = P := by
        rw [hP]
        exact filter_self_idem _ _
      by_cases hsw : (setBucket bs1 key P).length > rl.sweep_threshold
      · rw [if_pos hsw]
        have hav2 := allval_sweep rl.window now _ key P hset_av
        rw [hfilterP] at hav2
        have hc2 := contains_sweep_of_nonempty rl.window now _ key P hset_av
          hset_c (by rw [hfilterP]; simpa using hPe)
        exact lookup_of_allval _ _ _ hav2 hc2
      · rw [if_neg hsw]
        exact lookup_of_allval _ _ _ hset_av hset_c
  · rw [if_neg hlim]
    dsimp only
    refine ⟨⟨fun _ => by omega, fun _ => rfl⟩, ?_⟩
    rw [if_pos (by omega : P.length < rl.limit)]
    rw [if_neg (by simp : ¬ (P ++ [now]).isEmpty = true)]
    have hset_av := allval_set bs1 key (P ++ [now])
    have hset_c : containsBucket (setBucket bs1 key (P ++ [now])) key = true := by
      rw [contains_set]
      exact hc1
    have hfilter : (P ++ [now]).filter (fun t => now - t < rl.window)
        = P ++ [now] := by
      rw [List.filter_append]
      rw [hP, filter_self_idem]
      congr 1
      simp [hw]
    by_cases hsw : (setBucket bs1 key (P ++ [now])).length > rl.sweep_threshold
    · rw [if_pos hsw]
      have hav2 := allval_sweep rl.window now _ key _ hset_av
      rw [hfilter] at hav2
      have hc2 := contains_sweep_of_nonempty rl.window now _ key _ hset_av
        hset_c (by rw [hfilter]; simp)
      exact lookup_of_allval _ _ _ hav2 hc2
    · rw [if_neg hsw]
      exact lookup_of_allval _ _ _ hset_av hset_c

/-- The auth limiter configuration used as a witness fixture. -/
def limiter1 : RateLimiter := { limit := 2, window := 60, sweep_threshold := 1024 }

/-- C8 witness: the sliding-window property at a concrete limiter, key
and bucket state; the stale timestamp 30 is pruned, 90 is kept, and the
call is admitted and recorded. -/
theorem rate_limiter_allow_witness :
    0 < limiter1.window
  ∧ (((limiter1.allow 100 "ip1" [("ip1", [30, 90])]).1 = true
        ↔ ((lookupBucket [("ip1", [30, 90])] "ip1").filter
             (fun t => 100 - t < limiter1.window)).length < limiter1.limit)
     ∧ lookupBucket (limiter1.allow 100 "ip1" [("ip1", [30, 90])]).2 "ip1" =
         (if ((lookupBucket [("ip1", [30, 90])] "ip1").filter
               (fun t => 100 - t < limiter1.window)).length < limiter1.limit
          then (lookupBucket [("ip1", [30, 90])] "ip1").filter
                 (fun t => 100 - t < limiter1.window) ++ [100]
          else (lookupBucket [("ip1", [30, 90])] "ip1").filter
                 (fun t => 100 - t < limiter1.window))) := by
  exact ⟨by decide,
    rate_limiter_allow_spec limiter1 100 "ip1" [("ip1", [30, 90])] (by decide)⟩

/-- A found first-newline index marks a prefix ending in the newline
byte. -/
lemma fnp_some_getLast (l : List Nat) :
    ∀ i, firstNewlinePos l = some i → (l.take (i + 1)).getLast? = some 10 := by
  induction l with
  | nil => intro i h; cases h
  | cons b rest ih =>
    intro i h
    by_cases hb : (b == 10) = true
    · unfold firstNewlinePos at h
      rw [if_pos hb] at h
      cases h
      have hb10 : b = 10 := by simpa using hb
      simp [List.take, hb10]
    · unfold firstNewlinePos at h
      rw [if_neg hb] at h
      obtain ⟨j, hj, hij⟩ := Option.map_eq_some'.mp h
      have hIH := ih j hj
      have hne : rest.take (j + 1) ≠ [] := by
        intro hnil
        rw [hnil] at hIH
        simp at hIH
      obtain ⟨c, cs, hcc⟩ := List.exists_cons_of_ne_nil hne
      rw [← hij]
      show (b :: rest.take (j + 1)).getLast? = some 10
      rw [hcc, List.getLast?_cons_cons, ← hcc, hIH]

/-- A list containing a newline byte has a first-newline index. -/
lemma fnp_isSome_of_mem (l : List Nat) (h : 10 ∈ l) :
    (firstNewlinePos l).isSome = true := by
  induction l with
  | nil => cases h
  | cons b rest ih =>
    unfold firstNewlinePos
    by_cases hb : (b == 10) = true
    · rw [if_pos hb]
      rfl
    · rw [if_neg hb]
      have hmem : 10 ∈ rest := by
        rcases List.mem_cons.mp h with heq | hmem
        · exact absurd (by simp [heq.symm]) hb
        · exact hmem
      cases hf : firstNewlinePos rest with
      | none => rw [hf] at ih; exact absurd (ih hmem) (by simp)
      | some j => rfl

/-- A found first-newline index certifies a newline is present. -/
lemma fnp_mem_of_some (l : List Nat) :
    ∀ i, firstNewlinePos l = some i → 10 ∈ l := by
  induction l with
  | nil =>
    intro i h
    cases h
  | cons b rest ih =>
    intro i h
    unfold firstNewlinePos at h
    by_cases hb : (b == 10) = true
    · have hb10 : b = 10 := by simpa using hb
      exact List.mem_cons.mpr (Or.inl hb10.symm)
    · rw [if_neg hb] at h
      obtain ⟨j, hj, _⟩ := Option.map_eq_some'.mp h
      exact List.mem_cons_of_mem _ (ih j hj)

/-- C7: when the periodic size check finds the log larger than
LOG_MAX_SIZE (the check runs every LOG_CHECK_INTERVAL*100 = 10000 ≈
10 KiB written bytes), the file is rewritten as the sentinel line
followed by a suffix of the old content of at most LOG_RETAIN_SIZE
bytes; when the trailing LOG_RETAIN_SIZE region contains a newline the
retained suffix starts right after one (the dropped prefix of the
region ends in the newline byte), and when it contains none the whole
region is kept. -/
theorem log_roll_spec (content : List Nat)
    (h : content.length > LOG_MAX_SIZE) :
    LOG_CHECK_INTERVAL * 100 = 10000
  ∧ ∃ R, rollCheck content = TRUNC_SENTINEL ++ R
      ∧ R <:+ content
      ∧ R.length ≤ LOG_RETAIN_SIZE
      ∧ (10 ∈ content.drop (content.length - LOG_RETAIN_SIZE) →
          ∃ pre, pre ++ R = content.drop (content.length - LOG_RETAIN_SIZE)
            ∧ pre.getLast? = some 10)
      ∧ (10 ∉ content.drop (content.length - LOG_RETAIN_SIZE) →
          R = content.drop (content.length - LOG_RETAIN_SIZE)) := by
  refine ⟨rfl, ?_⟩
  have hlt : LOG_RETAIN_SIZE < LOG_MAX_SIZE := by
    norm_num [LOG_RETAIN_SIZE, LOG_MAX_SIZE]
  have hgt : ¬ content.length ≤ LOG_RETAIN_SIZE := by omega
  unfold rollCheck truncate_log_file
  rw [if_pos h, if_neg hgt]
  dsimp only
  cases hf : firstNewlinePos (content.drop (content.length - LOG_RETAIN_SIZE)) with
  | none =>
    refine ⟨content.drop (content.length - LOG_RETAIN_SIZE),
      ?_, List.drop_suffix _ _, ?_, ?_, fun _ => rfl⟩
    · show TRUNC_SENTINEL ++ (content.drop (content.length - LOG_RETAIN_SIZE)).drop 0
          = TRUNC_SENTINEL ++ content.drop (content.length - LOG_RETAIN_SIZE)
      rw [List.drop_zero]
    · rw [List.length_drop]
      omega
    · intro hmem
      have := fnp_isSome_of_mem _ hmem
      rw [hf] at this
      cases this
  | some i =>
    refine ⟨(content.drop (content.length - LOG_RETAIN_SIZE)).drop (i + 1),
      rfl, ?_, ?_, ?_, ?_⟩
    · exact (List.drop_suffix _ _).trans (List.drop_suffix _ _)
    · rw [List.length_drop, List.length_drop]
      omega
    · intro _
      exact ⟨(content.drop (content.length - LOG_RETAIN_SIZE)).take (i + 1),
        List.take_append_drop _ _, fnp_some_getLast _ i hf⟩
    · intro hnm
      exact absurd (fnp_mem_of_some _ i hf) hnm

/-- C7 witness: the rolling property applied to a concrete over-limit
file of LOG_MAX_SIZE + 1 newline bytes. -/
theorem log_roll_witness :
    (List.replicate (LOG_MAX_SIZE + 1) 10).length > LOG_MAX_SIZE
  ∧ (LOG_CHECK_INTERVAL * 100 = 10000
     ∧ ∃ R, rollCheck (List.replicate (LOG_MAX_SIZE + 1) 10) = TRUNC_SENTINEL ++ R
         ∧ R <:+ List.replicate (LOG_MAX_SIZE + 1) 10
         ∧ R.length ≤ LOG_RETAIN_SIZE
         ∧ (10 ∈ (List.replicate (LOG_MAX_SIZE + 1) 10).drop
               ((List.replicate (LOG_MAX_SIZE + 1) 10).length - LOG_RETAIN_SIZE) →
             ∃ pre, pre ++ R = (List.replicate (LOG_MAX_SIZE + 1) 10).drop
                 ((List.replicate (LOG_MAX_SIZE + 1) 10).length - LOG_RETAIN_SIZE)
               ∧ pre.getLast? = some 10)
         ∧ (10 ∉ (List.replicate (LOG_MAX_SIZE + 1) 10).drop
               ((List.replicate (LOG_MAX_SIZE + 1) 10).length - LOG_RETAIN_SIZE) →
             R = (List.replicate (LOG_MAX_SIZE + 1) 10).drop
                 ((List.replicate (LOG_MAX_SIZE + 1) 10).length - LOG_RETAIN_SIZE))) := by
  have hlen : (List.replicate (LOG_MAX_SIZE + 1) 10).length > LOG_MAX_SIZE := by
    rw [List.length_replicate]
    omega
  exact ⟨hlen, log_roll_spec _ hlen⟩

end Hypercraft
